import Mathlib

/-!
Verification development for the picky PKI core (picky, picky-asn1-der,
picky-server crates).  The Rust sources under src/ are embedded shallowly:
pure functions become Lean functions, fallible functions return Except,
functions that can panic return an Option layer (none models a panic), and
behaviour of external crates (sha1/sha2 digests, the rsa crate, serde
serializers, OsRng) is abstracted into an Ops record that theorems
quantify over.
-/

deriving instance DecidableEq for Except

/-- Byte sequences (Rust Vec of u8 and byte slices). -/
abbrev Bytes := List Nat

/-- Lowercase hex digit for a value below 16, as used by hex encoding. -/
def hexDigit (n : Nat) : Char :=
  if n < 10 then Char.ofNat (48 + n) else Char.ofNat (87 + n)

/-- Rendering of one byte as two lowercase hex characters. -/
def hexByte (b : Nat) : String :=
  String.mk [hexDigit (b / 16 % 16), hexDigit (b % 16)]

/-- Model of hex encoding of a byte sequence, as the hex crate produces it. -/
def hexEncode (bs : Bytes) : String :=
  String.join (bs.map hexByte)

/-- Hash algorithm selector of key_id_gen_method.rs. -/
inductive KeyIdHashAlgo
  | Sha1
  | Sha224
  | Sha256
  | Sha384
  | Sha512
  deriving DecidableEq

/-- Digest sizes in bytes of the sha1 and sha2 crate algorithms that the
hash macro in key_id_gen_method.rs dispatches to. -/
def KeyIdHashAlgo.digestLen : KeyIdHashAlgo → Nat
  | .Sha1 => 20
  | .Sha224 => 28
  | .Sha256 => 32
  | .Sha384 => 48
  | .Sha512 => 64

/-- Fields of the parsed RSAPublicKey structure: modulus and publicExponent
as big-endian bytes, as consumed by signature.rs and key_id_gen_method.rs. -/
structure RsaPublicKeyData where
  modulus : Bytes
  public_exponent : Bytes
  deriving DecidableEq

/-- Payload of the subjectPublicKey field for the two structurally
supported key families, mirroring serde::subject_public_key_info::PublicKey
as it is matched in signature.rs and key_id_gen_method.rs; for EC keys the
raw bit-string payload is kept. -/
inductive InnerPublicKey
  | RSA (rsa_pk : RsaPublicKeyData)
  | EC (payload : Bytes)
  deriving DecidableEq

/-- Modelled from the spec: PublicKey wraps a SubjectPublicKeyInfo
(models/key.rs is not under src); the embedding keeps the
subject_public_key field that the sources under src inspect. -/
structure PublicKey where
  subject_public_key : InnerPublicKey
  deriving DecidableEq

/-- Modelled from the spec: PrivateKey is a PKCS#8 wrapped RSA key and
to_public_key derives its SubjectPublicKeyInfo (models/key.rs is not under
src).  The embedding keeps the derived public key and an opaque secret part. -/
structure PrivateKey where
  public_part : PublicKey
  secret : Bytes
  deriving DecidableEq

/-- PrivateKey::to_public_key, modelled as returning the stored public part. -/
def PrivateKey.to_public_key (k : PrivateKey) : PublicKey := k.public_part

/-- Modelled from the spec: a Name is a single CommonName attribute with
display form CN=value (models/name.rs is not under src). -/
structure Name where
  common_name : String
  deriving DecidableEq

/-- Name::new_common_name. -/
def Name.new_common_name (s : String) : Name := ⟨s⟩

/-- Display form of a Name, as to_string produces in the source. -/
def Name.display (n : Name) : String := "CN=" ++ n.common_name

/-- Signature algorithm selector of signature.rs. -/
inductive SignatureHashType
  | RsaSha1
  | RsaSha224
  | RsaSha256
  | RsaSha384
  | RsaSha512
  deriving DecidableEq

/-- OID constant from oids.rs (value given by the spec, section 4.3). -/
def SHA1_WITH_RSA_ENCRYPTION : String := "1.2.840.113549.1.1.5"

/-- OID constant from oids.rs (value given by the spec, section 4.3). -/
def SHA224_WITH_RSA_ENCRYPTION : String := "1.2.840.113549.1.1.14"

/-- OID constant from oids.rs (value given by the spec, section 4.3). -/
def SHA256_WITH_RSA_ENCRYPTION : String := "1.2.840.113549.1.1.11"

/-- OID constant from oids.rs (value given by the spec, section 4.3). -/
def SHA384_WITH_RSA_ENCRYPTION : String := "1.2.840.113549.1.1.12"

/-- OID constant from oids.rs (value given by the spec, section 4.3). -/
def SHA512_WITH_RSA_ENCRYPTION : String := "1.2.840.113549.1.1.13"

/-- AlgorithmIdentifier reduced to the OID string it carries, which is the
only part the sources under src inspect. -/
abbrev AlgorithmIdentifier := String

/-- SignatureHashType::from_algorithm_identifier from signature.rs. -/
def SignatureHashType.from_algorithm_identifier
    (a : AlgorithmIdentifier) : Option SignatureHashType :=
  if a = SHA1_WITH_RSA_ENCRYPTION then some .RsaSha1
  else if a = SHA224_WITH_RSA_ENCRYPTION then some .RsaSha224
  else if a = SHA256_WITH_RSA_ENCRYPTION then some .RsaSha256
  else if a = SHA384_WITH_RSA_ENCRYPTION then some .RsaSha384
  else if a = SHA512_WITH_RSA_ENCRYPTION then some .RsaSha512
  else none

/-- Hash algorithm used by a SignatureHashType: both signature.rs and
key_id_gen_method.rs dispatch to the same sha1 and sha2 crates. -/
def SignatureHashType.toHashAlgo : SignatureHashType → KeyIdHashAlgo
  | .RsaSha1 => .Sha1
  | .RsaSha224 => .Sha224
  | .RsaSha256 => .Sha256
  | .RsaSha384 => .Sha384
  | .RsaSha512 => .Sha512

/-- From SignatureHashType for AlgorithmIdentifier in signature.rs,
reduced to the OID it selects. -/
def SignatureHashType.toAlgorithmIdentifier : SignatureHashType → AlgorithmIdentifier
  | .RsaSha1 => SHA1_WITH_RSA_ENCRYPTION
  | .RsaSha224 => SHA224_WITH_RSA_ENCRYPTION
  | .RsaSha256 => SHA256_WITH_RSA_ENCRYPTION
  | .RsaSha384 => SHA384_WITH_RSA_ENCRYPTION
  | .RsaSha512 => SHA512_WITH_RSA_ENCRYPTION

/-- Error kinds surfaced by the picky core (error.rs is summarized by the
spec, section 7); external carries messages of errors coming from outside
crates (rsa, serde, randomness). -/
inductive PickyError
  | certificateNotYetValid (not_before now : Nat)
  | certificateExpired (not_after now : Nat)
  | invalidCertificate (id : String) (cause : PickyError)
  | issuerIsNotCA (issuer_id : String)
  | caChainTooDeep (cert_id : String) (pathlen : Nat)
  | authorityKeyIdMismatch (expected actual : Bytes)
  | unsupportedAlgorithm (algorithm : String)
  | badSignature
  | caChainNoRoot
  | missingBuilderArgument (arg : String)
  | certGeneration (cause : PickyError)
  | asn1Serialization (element : String)
  | external (cause : String)
  deriving DecidableEq

/-- Key identifier generation method of key_id_gen_method.rs. -/
inductive KeyIdGenMethod
  | SPKValueHashedLeftmost160 (hash_algo : KeyIdHashAlgo)
  | SPKFullDER (hash_algo : KeyIdHashAlgo)
  deriving DecidableEq

/-- KeyUsage reduced to the one bit the sources under src inspect. -/
structure KeyUsage where
  digital_signature : Bool
  deriving DecidableEq

/-- ExtendedKeyUsage as an opaque list of OID strings. -/
abbrev ExtendedKeyUsage := List String

/-- SubjectAltName as an opaque list of general names. -/
abbrev SubjectAltName := List String

/-- IssuerAltName as an opaque list of general names. -/
abbrev IssuerAltName := List String

/-- Payload of an X.509v3 extension, covering the variants the builder
composes. -/
inductive ExtensionValue
  | basicConstraints (ca : Bool) (pathlen : Option Nat)
  | keyUsage (ku : KeyUsage)
  | extendedKeyUsage (eku : ExtendedKeyUsage)
  | subjectAltName (san : SubjectAltName)
  | issuerAltName (ian : IssuerAltName)
  | subjectKeyIdentifier (ski : Bytes)
  | authorityKeyIdentifier (key_id : Bytes) (issuer : Option Name) (serial : Option Bytes)
  deriving DecidableEq

/-- An X.509v3 extension: criticality flag plus payload. -/
structure Extension where
  critical : Bool
  value : ExtensionValue
  deriving DecidableEq

/-- Extension::into_critical from serde/extension.rs usage. -/
def Extension.into_critical (e : Extension) : Extension := { e with critical := true }

/-- Extension::into_non_critical from serde/extension.rs usage. -/
def Extension.into_non_critical (e : Extension) : Extension := { e with critical := false }

/-- Extension::new_basic_constraints; the builder always overrides the
criticality through into_critical or into_non_critical. -/
def Extension.new_basic_constraints (ca : Bool) (pathlen : Option Nat) : Extension :=
  ⟨false, .basicConstraints ca pathlen⟩

/-- Validity window of a TBSCertificate, with UTCDate values modelled as
naturals respecting the UTCDate order. -/
structure Validity where
  not_before : Nat
  not_after : Nat
  deriving DecidableEq

/-- X.509 certificate version. -/
inductive Version
  | V1
  | V2
  | V3
  deriving DecidableEq

/-- TBSCertificate as assembled by CertificateBuilder::build. -/
structure TBSCertificate where
  version : Version
  serial_number : Bytes
  signature : AlgorithmIdentifier
  issuer : Name
  validity : Validity
  subject : Name
  subject_public_key_info : PublicKey
  extensions : List Extension
  deriving DecidableEq

/-- Certificate structure: TBS, outer algorithm, signature bit string. -/
structure Certificate where
  tbs_certificate : TBSCertificate
  signature_algorithm : AlgorithmIdentifier
  signature_value : Bytes
  deriving DecidableEq

/-- Behaviour of the external collaborators the core calls into: the sha1
and sha2 digests, the rsa crate, the serde DER serializers, the OsRng draw,
and the default criticality flags of the extension constructors that live
outside src.  Theorems quantify over an arbitrary Ops value. -/
structure Ops where
  hashFn : KeyIdHashAlgo → Bytes → Bytes
  rsaPkToDer : RsaPublicKeyData → Except String Bytes
  spkiToDer : PublicKey → Except String Bytes
  rsaNew : RsaPublicKeyData → Except String Unit
  rsaVerifyOk : RsaPublicKeyData → SignatureHashType → Bytes → Bytes → Bool
  rsaSign : SignatureHashType → Bytes → PrivateKey → Except String Bytes
  tbsToDer : TBSCertificate → Except String Bytes
  rngU32 : Nat
  kuCritical : Bool
  ekuCritical : Bool
  sanCritical : Bool
  ianCritical : Bool
  skiCritical : Bool
  akiCritical : Bool

/-- Results of code that can also panic: none models a Rust panic, some
carries the usual Result. -/
def PRes (α : Type) : Type := Option (Except PickyError α)

instance : Monad PRes where
  pure a := some (.ok a)
  bind m f :=
    match m with
    | none => none
    | some (.error e) => some (.error e)
    | some (.ok a) => f a

/-- Failing PRes computation. -/
def pfail {α : Type} (e : PickyError) : PRes α := some (.error e)

/-- Panicking PRes computation. -/
def ppanic {α : Type} : PRes α := none

/-- Succeeding PRes computation. -/
def pok {α : Type} (a : α) : PRes α := some (.ok a)

instance {α : Type} [DecidableEq α] : DecidableEq (PRes α) :=
  inferInstanceAs (DecidableEq (Option (Except PickyError α)))

/-- Rust slicing v[..n]: panics (none) when n exceeds the length. -/
def sliceTo (v : Bytes) (n : Nat) : Option Bytes :=
  if n ≤ v.length then some (v.take n) else none

/-- KeyIdGenMethod::generate_from from key_id_gen_method.rs.  The source
computes hash(der) and then slices the digest with the range ..160, a
byte index; a digest shorter than 160 bytes makes that slice panic. -/
def KeyIdGenMethod.generate_from (ops : Ops) (m : KeyIdGenMethod)
    (public_key : PublicKey) : PRes Bytes :=
  match m, public_key.subject_public_key with
  | .SPKValueHashedLeftmost160 hash_algo, .RSA rsa_pk =>
    match ops.rsaPkToDer rsa_pk with
    | .error e => pfail (.external e)
    | .ok der =>
      match sliceTo (ops.hashFn hash_algo der) 160 with
      | none => ppanic
      | some s => pok s
  | .SPKValueHashedLeftmost160 hash_algo, .EC payload =>
    match sliceTo (ops.hashFn hash_algo payload) 160 with
    | none => ppanic
    | some s => pok s
  | .SPKFullDER hash_algo, _ =>
    match ops.spkiToDer public_key with
    | .error e => pfail (.external e)
    | .ok der => pok (ops.hashFn hash_algo der)

/-- Digest of a message under the hash selected by a SignatureHashType,
as SignatureHashType::hash computes it. -/
def SignatureHashType.hashMsg (ops : Ops) (self : SignatureHashType) (msg : Bytes) : Bytes :=
  ops.hashFn self.toHashAlgo msg

/-- SignatureHashType::verify from signature.rs: EC keys are rejected with
UnsupportedAlgorithm before any RSA work; RSA keys go through the rsa
crate, whose verification outcome Ops abstracts. -/
def SignatureHashType.verify (ops : Ops) (self : SignatureHashType) (public_key : PublicKey)
    (msg signature_bytes : Bytes) : Except PickyError Unit :=
  match public_key.subject_public_key with
  | .EC _ => .error (.unsupportedAlgorithm "elliptic curves")
  | .RSA key =>
    match ops.rsaNew key with
    | .error e => .error (.external e)
    | .ok _ =>
      if ops.rsaVerifyOk key self (self.hashMsg ops msg) signature_bytes then .ok ()
      else .error .badSignature

/-- SignatureHashType::sign from signature.rs, with the rsa crate work
(from_components2, blinding randomness, sign_blinded) abstracted by Ops. -/
def SignatureHashType.sign (ops : Ops) (self : SignatureHashType) (msg : Bytes)
    (private_key : PrivateKey) : Except PickyError Bytes :=
  match ops.rsaSign self msg private_key with
  | .error e => .error (.external e)
  | .ok s => .ok s

/-- View of a parsed certificate: the accessor results that the sources
under src consume.  The accessor implementations (serde/certificate.rs and
the extension lookups) are not under src, so the view stores each accessor
result directly; UTCDate values are naturals respecting the UTCDate order. -/
structure Cert where
  not_before : Nat
  not_after : Nat
  basic_constraints : Except String (Option Bool × Option Nat)
  subject_key_identifier : Except String Bytes
  authority_key_identifier : Except String Bytes
  signature_algorithm : AlgorithmIdentifier
  tbs_der : Except String Bytes
  signature_value : Bytes
  public_key : PublicKey
  subject : Name
  issuer : Name
  deriving DecidableEq

/-- Cert::verify from certificate.rs: the validity window check. -/
def Cert.verify (c : Cert) (now : Nat) : Except PickyError Unit :=
  if now < c.not_before then .error (.certificateNotYetValid c.not_before now)
  else if c.not_after < now then .error (.certificateExpired c.not_after now)
  else .ok ()

/-- Context wrapping with InvalidCertificate, as snafu ResultExt context
does in certificate.rs. -/
def ctxInvalidCert {α : Type} (id : String) : Except PickyError α → Except PickyError α
  | .ok a => .ok a
  | .error e => .error (.invalidCertificate id e)

/-- Accessor result lifted into the picky error type and wrapped with
InvalidCertificate, as in the verify_chain loop. -/
def accessWrap {α : Type} (id : String) : Except String α → Except PickyError α
  | .ok a => .ok a
  | .error e => .error (.invalidCertificate id (.external e))

/-- Basic constraints gate at the top of the verify_chain loop: a failing
accessor is defaulted to (None, None); ca equal to Some false rejects the
issuer, and a present pathlen smaller than the loop index rejects the
chain depth. -/
def bcCheck (parent_cert : Cert) (number_certs : Nat) : Option PickyError :=
  let bc :=
    match parent_cert.basic_constraints with
    | .ok p => p
    | .error _ => (none, none)
  match bc with
  | (some false, _) => some (.issuerIsNotCA parent_cert.subject.display)
  | (_, some pathlen) =>
    if pathlen < number_certs then
      some (.caChainTooDeep parent_cert.subject.display pathlen)
    else none
  | _ => none

/-- Body of the for loop of Cert::verify_chain from certificate.rs,
recursing over the parent iterator with the enumerate index. -/
def verifyChainLoop (ops : Ops) (now : Nat) :
    Cert → Nat → List Cert → Except PickyError Unit
  | _, _, [] => .error .caChainNoRoot
  | current_cert, number_certs, parent_cert :: rest =>
    match bcCheck parent_cert number_certs with
    | some e => .error e
    | none =>
      match ctxInvalidCert parent_cert.subject.display (parent_cert.verify now) with
      | .error e => .error e
      | .ok _ =>
        match accessWrap parent_cert.subject.display parent_cert.subject_key_identifier with
        | .error e => .error e
        | .ok parent_ski =>
          match accessWrap current_cert.subject.display current_cert.authority_key_identifier with
          | .error e => .error e
          | .ok current_aki =>
            if parent_ski ≠ current_aki then
              .error (.authorityKeyIdMismatch current_aki parent_ski)
            else
              match SignatureHashType.from_algorithm_identifier current_cert.signature_algorithm with
              | none => .error (.unsupportedAlgorithm current_cert.signature_algorithm)
              | some hash_type =>
                match accessWrap current_cert.subject.display current_cert.tbs_der with
                | .error e => .error e
                | .ok msg =>
                  match ctxInvalidCert current_cert.subject.display
                      (hash_type.verify ops parent_cert.public_key msg
                        current_cert.signature_value) with
                  | .error e => .error e
                  | .ok _ =>
                    match accessWrap parent_cert.subject.display
                        parent_cert.authority_key_identifier with
                    | .error e => .error e
                    | .ok parent_aki =>
                      if parent_ski = parent_aki then .ok ()
                      else verifyChainLoop ops now parent_cert (number_certs + 1) rest

/-- Cert::verify_chain from certificate.rs: leaf validity first, then the
walk over the parent iterator. -/
def Cert.verify_chain (ops : Ops) (leaf : Cert) (chain : List Cert) (now : Nat) :
    Except PickyError Unit :=
  match ctxInvalidCert leaf.subject.display (leaf.verify now) with
  | .error e => .error e
  | .ok _ => verifyChainLoop ops now leaf 0 chain

/-- Concrete instantiation of Ops used by witnesses: digests of the
documented length, serializers that succeed, an RSA layer that accepts
every signature. -/
def ops0 : Ops where
  hashFn := fun a b => (b ++ List.replicate a.digestLen 0).take a.digestLen
  rsaPkToDer := fun k => .ok (k.modulus ++ k.public_exponent)
  spkiToDer := fun pk =>
    .ok (match pk.subject_public_key with
    | .RSA k => 0 :: (k.modulus ++ k.public_exponent)
    | .EC p => 1 :: p)
  rsaNew := fun _ => .ok ()
  rsaVerifyOk := fun _ _ _ _ => true
  rsaSign := fun _ msg _ => .ok msg
  tbsToDer := fun _ => .ok [0]
  rngU32 := 7
  kuCritical := true
  ekuCritical := false
  sanCritical := false
  ianCritical := false
  skiCritical := false
  akiCritical := false

/-- Digest lengths of ops0 agree with the documented digest sizes. -/
theorem ops0_hash_len (a : KeyIdHashAlgo) (b : Bytes) :
    (ops0.hashFn a b).length = a.digestLen := by
  simp [ops0]

/-- C1: generate_from with SPKValueHashedLeftmost160 slices the digest
with the byte range ..160, but every digest it can compute is at most 64
bytes long, so the slice panics on every RSA public key whose inner DER
serialization succeeds, instead of returning the first 20 digest bytes. -/
theorem generate_from_leftmost160_panics (ops : Ops) (h : KeyIdHashAlgo)
    (rsa_pk : RsaPublicKeyData) (der : Bytes)
    (hlen : ∀ a b, (ops.hashFn a b).length = a.digestLen)
    (hser : ops.rsaPkToDer rsa_pk = .ok der) :
    KeyIdGenMethod.generate_from ops (.SPKValueHashedLeftmost160 h)
      ⟨.RSA rsa_pk⟩ = ppanic := by
  have hred : KeyIdGenMethod.generate_from ops (.SPKValueHashedLeftmost160 h)
      ⟨.RSA rsa_pk⟩ =
      match ops.rsaPkToDer rsa_pk with
      | .error e => pfail (.external e)
      | .ok der =>
        match sliceTo (ops.hashFn h der) 160 with
        | none => ppanic
        | some s => pok s := rfl
  rw [hred, hser]
  have hlt : (ops.hashFn h der).length < 160 := by
    rw [hlen]
    cases h <;> simp [KeyIdHashAlgo.digestLen]
  have hnle : ¬ (160 ≤ (ops.hashFn h der).length) := by omega
  simp [sliceTo, hnle, ppanic]

/-- Witness for C1 at a concrete RSA key and hash selection. -/
theorem generate_from_leftmost160_panics_witness :
    KeyIdGenMethod.generate_from ops0 (.SPKValueHashedLeftmost160 .Sha256)
      ⟨.RSA ⟨[1], [1]⟩⟩ = ppanic :=
  generate_from_leftmost160_panics ops0 .Sha256 ⟨[1], [1]⟩ [1, 1] ops0_hash_len rfl

/-- C6 counterexample: key identifier generation with SPKFullDER on an EC
key returns Ok instead of failing with UnsupportedAlgorithm, refuting the
claim that every core operation consuming an EC key fails with that error. -/
theorem generate_from_ec_fullder_ok :
    KeyIdGenMethod.generate_from ops0 (.SPKFullDER .Sha256) ⟨.EC [4, 1, 2]⟩
        = pok (ops0.hashFn .Sha256 (1 :: [4, 1, 2]))
      ∧ KeyIdGenMethod.generate_from ops0 (.SPKFullDER .Sha256) ⟨.EC [4, 1, 2]⟩
        ≠ pfail (.unsupportedAlgorithm "elliptic curves") := by
  exact ⟨rfl, by decide⟩

/-- C6 amended: verify on an EC public key fails with UnsupportedAlgorithm
for every message, algorithm and signature, but key identifier generation
does not: SPKFullDER succeeds on an EC key whenever the SPKI serialization
succeeds. -/
theorem verify_ec_unsupported (ops : Ops) (payload msg signature_bytes der : Bytes)
    (algo : SignatureHashType) (hash_algo : KeyIdHashAlgo)
    (hser : ops.spkiToDer ⟨.EC payload⟩ = .ok der) :
    SignatureHashType.verify ops algo ⟨.EC payload⟩ msg signature_bytes
        = .error (.unsupportedAlgorithm "elliptic curves")
      ∧ KeyIdGenMethod.generate_from ops (.SPKFullDER hash_algo) ⟨.EC payload⟩
        = pok (ops.hashFn hash_algo der) := by
  refine ⟨rfl, ?_⟩
  have hred : KeyIdGenMethod.generate_from ops (.SPKFullDER hash_algo) ⟨.EC payload⟩ =
      match ops.spkiToDer ⟨.EC payload⟩ with
      | .error e => pfail (.external e)
      | .ok der => pok (ops.hashFn hash_algo der) := rfl
  rw [hred, hser]

/-- Witness for the amended C6 at a concrete EC key. -/
theorem verify_ec_unsupported_witness :
    SignatureHashType.verify ops0 .RsaSha256 ⟨.EC [4]⟩ [1] [2]
        = .error (.unsupportedAlgorithm "elliptic curves")
      ∧ KeyIdGenMethod.generate_from ops0 (.SPKFullDER .Sha1) ⟨.EC [4]⟩
        = pok (ops0.hashFn .Sha1 (1 :: [4])) :=
  verify_ec_unsupported ops0 [4] [1] [2] (1 :: [4]) .RsaSha256 .Sha1 rfl

/-- Validity window containment, the property Cert::verify checks. -/
def validAt (c : Cert) (now : Nat) : Prop :=
  c.not_before ≤ now ∧ now ≤ c.not_after

instance (c : Cert) (now : Nat) : Decidable (validAt c now) :=
  inferInstanceAs (Decidable (_ ∧ _))

/-- Cert.verify succeeds exactly on the validity window. -/
theorem verify_ok_iff (c : Cert) (now : Nat) :
    c.verify now = .ok () ↔ validAt c now := by
  unfold Cert.verify validAt
  split_ifs with h1 h2 <;> simp <;> omega

/-- Link condition between a child and its issuing parent: the parent
subject key identifier is fetched successfully and equals the child
authority key identifier. -/
def linkOk (child parent : Cert) : Prop :=
  ∃ s, parent.subject_key_identifier = .ok s ∧ child.authority_key_identifier = .ok s

/-- Signature condition between a child and its issuing parent: the child
outer algorithm maps to a hash type, the child TBS serializes, and the
signature value verifies under the parent public key. -/
def sigOk (ops : Ops) (child parent : Cert) : Prop :=
  ∃ ht msg,
    SignatureHashType.from_algorithm_identifier child.signature_algorithm = some ht
    ∧ child.tbs_der = .ok msg
    ∧ ht.verify ops parent.public_key msg child.signature_value = .ok ()

/-- Every adjacent pair of the list satisfies the link and signature
conditions. -/
def chainLinked (ops : Ops) : List Cert → Prop
  | [] => True
  | [_] => True
  | c :: p :: rest => linkOk c p ∧ sigOk ops c p ∧ chainLinked ops (p :: rest)

/-- Self-issued root condition: subject key identifier equals authority
key identifier, both fetched successfully. -/
def isRoot (c : Cert) : Prop :=
  ∃ s, c.subject_key_identifier = .ok s ∧ c.authority_key_identifier = .ok s

/-- Soundness of the verify_chain loop: success examines a prefix of the
parents ending at a self-issued root, with every examined certificate
valid and every adjacent pair linked and signed. -/
theorem verifyChainLoop_sound (ops : Ops) (now : Nat) :
    ∀ (chain : List Cert) (current : Cert) (i : Nat),
      verifyChainLoop ops now current i chain = .ok () →
      ∃ k rootc, chain[k]? = some rootc ∧
        (∀ c ∈ chain.take (k + 1), validAt c now) ∧
        chainLinked ops (current :: chain.take (k + 1)) ∧
        isRoot rootc := by
  intro chain
  induction chain with
  | nil =>
    intro current i h
    simp [verifyChainLoop] at h
  | cons parent rest ih =>
    intro current i h
    rw [verifyChainLoop] at h
    cases hbc : bcCheck parent i with
    | some e => rw [hbc] at h; simp at h
    | none =>
    rw [hbc] at h
    cases hv : parent.verify now with
    | error e => simp [ctxInvalidCert, hv] at h
    | ok u =>
    cases u
    rw [hv] at h
    simp only [ctxInvalidCert] at h
    cases hski : parent.subject_key_identifier with
    | error e => simp [accessWrap, hski] at h
    | ok parent_ski =>
    rw [hski] at h
    simp only [accessWrap] at h
    cases haki : current.authority_key_identifier with
    | error e => simp [accessWrap, haki] at h
    | ok current_aki =>
    rw [haki] at h
    simp only [accessWrap] at h
    by_cases heq : parent_ski = current_aki
    · rw [if_neg (fun hn => hn heq)] at h
      cases hht : SignatureHashType.from_algorithm_identifier current.signature_algorithm with
      | none => rw [hht] at h; simp at h
      | some hash_type =>
      rw [hht] at h
      cases htbs : current.tbs_der with
      | error e => simp [accessWrap, htbs] at h
      | ok msg =>
      rw [htbs] at h
      simp only [accessWrap] at h
      cases hsig : hash_type.verify ops parent.public_key msg current.signature_value with
      | error e => simp [ctxInvalidCert, hsig] at h
      | ok u2 =>
      cases u2
      rw [hsig] at h
      simp only [ctxInvalidCert] at h
      cases hpaki : parent.authority_key_identifier with
      | error e => simp [accessWrap, hpaki] at h
      | ok parent_aki =>
      rw [hpaki] at h
      simp only [accessWrap] at h
      by_cases hroot : parent_ski = parent_aki
      · refine ⟨0, parent, by simp, ?_, ?_, ⟨parent_ski, hski, hroot ▸ hpaki⟩⟩
        · intro c hc
          simp at hc
          rw [hc]
          exact (verify_ok_iff parent now).mp hv
        · show chainLinked ops (current :: [parent])
          exact ⟨⟨parent_ski, hski, heq ▸ haki⟩, ⟨hash_type, msg, hht, htbs, hsig⟩, trivial⟩
      · rw [if_neg hroot] at h
        obtain ⟨k, rootc, hget, hvalid, hlinked, hisroot⟩ := ih parent (i + 1) h
        refine ⟨k + 1, rootc, by simpa using hget, ?_, ?_, hisroot⟩
        · intro c hc
          rw [List.take_succ_cons] at hc
          rcases List.mem_cons.mp hc with hc | hc
          · rw [hc]
            exact (verify_ok_iff parent now).mp hv
          · exact hvalid c hc
        · rw [List.take_succ_cons]
          exact ⟨⟨parent_ski, hski, heq ▸ haki⟩, ⟨hash_type, msg, hht, htbs, hsig⟩, hlinked⟩
    · rw [if_pos heq] at h
      simp at h

/-- C3: chain soundness.  When verify_chain returns Ok, the leaf is valid
at the given time, some prefix of the parent list up to index k was
examined, every examined certificate is valid at that time, every adjacent
pair (child, parent) along leaf and that prefix satisfies the key
identifier link and the signature check under the parent public key, and
the certificate at index k is a self-issued root. -/
theorem verify_chain_sound (ops : Ops) (leaf : Cert) (chain : List Cert) (now : Nat)
    (h : Cert.verify_chain ops leaf chain now = .ok ()) :
    validAt leaf now ∧
    ∃ k rootc, chain[k]? = some rootc ∧
      (∀ c ∈ chain.take (k + 1), validAt c now) ∧
      chainLinked ops (leaf :: chain.take (k + 1)) ∧
      isRoot rootc := by
  unfold Cert.verify_chain at h
  cases hv : leaf.verify now with
  | error e => simp [ctxInvalidCert, hv] at h
  | ok u =>
    cases u
    rw [hv] at h
    simp only [ctxInvalidCert] at h
    exact ⟨(verify_ok_iff leaf now).mp hv, verifyChainLoop_sound ops now chain leaf 0 h⟩

/-- Concrete self-issued root used by witnesses. -/
def rootCert0 : Cert where
  not_before := 0
  not_after := 10
  basic_constraints := .ok (some true, none)
  subject_key_identifier := .ok [9]
  authority_key_identifier := .ok [9]
  signature_algorithm := SHA256_WITH_RSA_ENCRYPTION
  tbs_der := .ok [3]
  signature_value := [7]
  public_key := ⟨.RSA ⟨[1], [1]⟩⟩
  subject := ⟨"Root"⟩
  issuer := ⟨"Root"⟩

/-- Concrete leaf used by witnesses, linked to rootCert0. -/
def leafCert0 : Cert where
  not_before := 0
  not_after := 10
  basic_constraints := .ok (some false, none)
  subject_key_identifier := .ok [8]
  authority_key_identifier := .ok [9]
  signature_algorithm := SHA256_WITH_RSA_ENCRYPTION
  tbs_der := .ok [2]
  signature_value := [6]
  public_key := ⟨.RSA ⟨[1], [1]⟩⟩
  subject := ⟨"Leaf"⟩
  issuer := ⟨"Root"⟩

/-- Witness for C3 at a concrete one-parent chain. -/
theorem verify_chain_sound_witness :
    validAt leafCert0 5 ∧
    ∃ k rootc, [rootCert0][k]? = some rootc ∧
      (∀ c ∈ [rootCert0].take (k + 1), validAt c 5) ∧
      chainLinked ops0 (leafCert0 :: [rootCert0].take (k + 1)) ∧
      isRoot rootc :=
  verify_chain_sound ops0 leafCert0 [rootCert0] 5 (by decide)

/-- When every parent checks out but none is self-issued, the loop
exhausts the chain and reports the missing root. -/
theorem verifyChainLoop_no_root (ops : Ops) (now : Nat) :
    ∀ (chain : List Cert) (current : Cert) (i : Nat),
      (∀ c ∈ chain, validAt c now) →
      (∀ j c, chain[j]? = some c → bcCheck c (i + j) = none) →
      chainLinked ops (current :: chain) →
      (∀ c ∈ chain, ∃ s a, c.subject_key_identifier = .ok s ∧
          c.authority_key_identifier = .ok a ∧ s ≠ a) →
      verifyChainLoop ops now current i chain = .error .caChainNoRoot := by
  intro chain
  induction chain with
  | nil =>
    intro current i _ _ _ _
    rfl
  | cons parent rest ih =>
    intro current i hvalid hbc hlinked hnoroot
    obtain ⟨s, a, hski, haki, hne⟩ := hnoroot parent (by simp)
    obtain ⟨⟨s2, hski2, haki2⟩, ⟨ht, msg, hht, htbs, hsig⟩, hlinked2⟩ := hlinked
    have hs2 : s2 = s := by
      rw [hski] at hski2
      injection hski2 with h2
      exact h2.symm
    subst hs2
    have hbc0 : bcCheck parent i = none := by
      have h2 := hbc 0 parent (by simp)
      simpa using h2
    have hpv : parent.verify now = .ok () :=
      (verify_ok_iff parent now).mpr (hvalid parent (by simp))
    rw [verifyChainLoop]
    simp only [hbc0, hpv, ctxInvalidCert, hski, haki2, accessWrap]
    rw [if_neg (fun hn => hn rfl)]
    simp only [hht, htbs, accessWrap, hsig, ctxInvalidCert, haki]
    rw [if_neg hne]
    refine ih parent (i + 1) (fun c hc => hvalid c (by simp [hc])) ?_ hlinked2
      (fun c hc => hnoroot c (by simp [hc]))
    intro j c hj
    have h2 := hbc (j + 1) c (by simpa using hj)
    have harith : i + (j + 1) = i + 1 + j := by omega
    rwa [harith] at h2

/-- C5: when the leaf and every parent are valid at the given time, every
parent passes the basic constraints gate, every adjacent pair is linked
and signed, and no parent has its subject key identifier equal to its own
authority key identifier, verify_chain exhausts the parent iterator and
returns CAChainNoRoot. -/
theorem verify_chain_returns_no_root (ops : Ops) (leaf : Cert) (chain : List Cert) (now : Nat)
    (hleaf : validAt leaf now)
    (hvalid : ∀ c ∈ chain, validAt c now)
    (hbc : ∀ j c, chain[j]? = some c → bcCheck c j = none)
    (hlinked : chainLinked ops (leaf :: chain))
    (hnoroot : ∀ c ∈ chain, ∃ s a, c.subject_key_identifier = .ok s ∧
        c.authority_key_identifier = .ok a ∧ s ≠ a) :
    Cert.verify_chain ops leaf chain now = .error .caChainNoRoot := by
  unfold Cert.verify_chain
  have hpv : leaf.verify now = .ok () := (verify_ok_iff leaf now).mpr hleaf
  simp only [hpv, ctxInvalidCert]
  refine verifyChainLoop_no_root ops now chain leaf 0 hvalid ?_ hlinked hnoroot
  intro j c hj
  rw [Nat.zero_add]
  exact hbc j c hj

/-- Concrete non-root intermediate used by witnesses: its subject key
identifier differs from its authority key identifier. -/
def intCert0 : Cert where
  not_before := 0
  not_after := 10
  basic_constraints := .ok (some true, none)
  subject_key_identifier := .ok [9]
  authority_key_identifier := .ok [5]
  signature_algorithm := SHA256_WITH_RSA_ENCRYPTION
  tbs_der := .ok [4]
  signature_value := [7]
  public_key := ⟨.RSA ⟨[1], [1]⟩⟩
  subject := ⟨"Intermediate"⟩
  issuer := ⟨"Root"⟩

/-- Witness for C5: a leaf with a single valid, linked, non-root parent
makes verify_chain return CAChainNoRoot. -/
theorem verify_chain_returns_no_root_witness :
    Cert.verify_chain ops0 leafCert0 [intCert0] 5 = .error .caChainNoRoot :=
  verify_chain_returns_no_root ops0 leafCert0 [intCert0] 5
    (by decide)
    (by
      intro c hc
      simp at hc
      subst hc
      decide)
    (by
      intro j c hj
      cases j with
      | zero =>
        simp at hj
        subst hj
        decide
      | succ n => simp at hj)
    ⟨⟨[9], rfl, rfl⟩, ⟨.RsaSha256, [2], by decide, rfl, by decide⟩, trivial⟩
    (by
      intro c hc
      simp at hc
      subst hc
      exact ⟨[9], [5], rfl, rfl, by decide⟩)

/-- Backend operations consumed by find_ca_chain in
picky-server/src/http/controllers/server_controller.rs; find returns the
hash values of the matching name rows, the other maps are keyed as in the
backend contract. -/
structure ChainBackend where
  findName : String → Except String (List String)
  getCert : String → Except String Bytes
  getHashFromKeyIdentifier : String → Except String String

/-- Parsing and PEM framing used by find_ca_chain; Cert::from_der produces
the accessor view and to_pem produces the chain entries. -/
structure ChainOps where
  parseCert : Bytes → Except String Cert
  toPem : String → Bytes → String

/-- Loop of find_ca_chain, embedded with explicit fuel: the Rust source
runs an unbounded loop, so a return of none for every fuel value means the
source loops forever.  The loop keeps only the key identifier used in the
previous iteration and stops when the freshly read authority key
identifier equals it. -/
def find_ca_chain_loop (ops : ChainOps) (repos : ChainBackend) :
    Nat → Bytes → List String → String → Option (Except String (List String))
  | 0, _, _, _ => none
  | fuel + 1, cert_der, chain, current_key_id =>
    match ops.parseCert cert_der with
    | .error _ => some (.error "could not deserialize certificate")
    | .ok cert =>
      match cert.authority_key_identifier with
      | .error _ => some (.error "could not fetch authority key identifier")
      | .ok aki_bytes =>
        let parent_key_id := hexEncode aki_bytes
        if current_key_id = parent_key_id then some (.ok chain)
        else
          match repos.getHashFromKeyIdentifier parent_key_id with
          | .error _ => some (.error "could not fetch hash")
          | .ok hash =>
            match repos.getCert hash with
            | .error _ => some (.error "could not fetch certificate der")
            | .ok der2 =>
              find_ca_chain_loop ops repos fuel der2
                (chain ++ [ops.toPem "CERTIFICATE" der2]) parent_key_id

/-- find_ca_chain from picky-server/src/http/controllers/server_controller.rs:
name lookup, first hash, certificate fetch, then the chain walk. -/
def find_ca_chain (ops : ChainOps) (repos : ChainBackend) (fuel : Nat)
    (ca_name : String) : Option (Except String (List String)) :=
  match repos.findName ca_name with
  | .error _ => some (.error "could not fetch CA hash id")
  | .ok [] => some (.error "No intermediate certificate found!")
  | .ok (h :: _) =>
    match repos.getCert h with
    | .error _ => some (.error "could not fetch CA certificate der")
    | .ok cert_der =>
      find_ca_chain_loop ops repos fuel cert_der
        [ops.toPem "CERTIFICATE" cert_der] ""

/-- First certificate of the malformed two-cycle backend: its authority
key identifier hex encodes to bb, which resolves to the second
certificate. -/
def cycleCertA : Cert where
  not_before := 0
  not_after := 10
  basic_constraints := .ok (some true, none)
  subject_key_identifier := .ok [170]
  authority_key_identifier := .ok [187]
  signature_algorithm := SHA256_WITH_RSA_ENCRYPTION
  tbs_der := .ok [0]
  signature_value := [7]
  public_key := ⟨.RSA ⟨[1], [1]⟩⟩
  subject := ⟨"A"⟩
  issuer := ⟨"B"⟩

/-- Second certificate of the malformed two-cycle backend: its authority
key identifier hex encodes to aa, which resolves back to the first
certificate. -/
def cycleCertB : Cert where
  not_before := 0
  not_after := 10
  basic_constraints := .ok (some true, none)
  subject_key_identifier := .ok [187]
  authority_key_identifier := .ok [170]
  signature_algorithm := SHA256_WITH_RSA_ENCRYPTION
  tbs_der := .ok [1]
  signature_value := [7]
  public_key := ⟨.RSA ⟨[1], [1]⟩⟩
  subject := ⟨"B"⟩
  issuer := ⟨"A"⟩

/-- Malformed backend whose authority key identifier links form a cycle of
length two: aa resolves to the certificate whose AKI is bb and bb resolves
to the certificate whose AKI is aa. -/
def cycleBackend : ChainBackend where
  findName := fun n => if n = "cycle ca" then .ok ["hA"] else .error "NotFound"
  getCert := fun h =>
    if h = "hA" then .ok [0] else if h = "hB" then .ok [1] else .error "NotFound"
  getHashFromKeyIdentifier := fun kid =>
    if kid = "bb" then .ok "hB" else if kid = "aa" then .ok "hA" else .error "NotFound"

/-- Parser for the two-cycle backend: der [0] is cycleCertA and der [1] is
cycleCertB. -/
def cycleOps : ChainOps where
  parseCert := fun der =>
    if der = [0] then .ok cycleCertA
    else if der = [1] then .ok cycleCertB
    else .error "bad der"
  toPem := fun label der => label ++ hexEncode der

/-- The loop alternates forever between the two cycle states, whatever the
fuel and the accumulated chain. -/
theorem cycle_loop_diverges :
    ∀ (fuel : Nat) (chain : List String),
      find_ca_chain_loop cycleOps cycleBackend fuel [0] chain "aa" = none ∧
      find_ca_chain_loop cycleOps cycleBackend fuel [1] chain "bb" = none := by
  intro fuel
  induction fuel with
  | zero =>
    intro chain
    exact ⟨rfl, rfl⟩
  | succ n ih =>
    intro chain
    refine ⟨?_, ?_⟩
    · show find_ca_chain_loop cycleOps cycleBackend n [1]
        (chain ++ [cycleOps.toPem "CERTIFICATE" [1]]) "bb" = none
      exact (ih _).2
    · show find_ca_chain_loop cycleOps cycleBackend n [0]
        (chain ++ [cycleOps.toPem "CERTIFICATE" [0]]) "aa" = none
      exact (ih _).1

/-- C2: find_ca_chain does not terminate on the malformed two-cycle
backend: for every fuel value the walk is still running, because the
source only compares the next authority key identifier with the
immediately preceding one instead of a visited set, so a cycle of length
two revisits identifiers forever. -/
theorem find_ca_chain_cycle_diverges (fuel : Nat) :
    find_ca_chain cycleOps cycleBackend fuel "cycle ca" = none := by
  cases fuel with
  | zero => rfl
  | succ n =>
    show find_ca_chain_loop cycleOps cycleBackend (n + 1) [0]
      [cycleOps.toPem "CERTIFICATE" [0]] "" = none
    show find_ca_chain_loop cycleOps cycleBackend n [1]
      ([cycleOps.toPem "CERTIFICATE" [0]] ++ [cycleOps.toPem "CERTIFICATE" [1]]) "bb" = none
    exact (cycle_loop_diverges n _).2

/-- Modelled from the spec: a CSR view keeping the subject, the embedded
public key, and the self-signature outcome (models/csr.rs is not under
src); the builder only calls verify and into_subject_infos. -/
structure Csr where
  subject_name : Name
  public_key : PublicKey
  verify_ok : Bool
  deriving DecidableEq

/-- Csr::verify outcome: the spec names the failure InvalidSignature,
which the error enum surfaces as the bad signature kind. -/
def Csr.verify (c : Csr) : Except PickyError Unit :=
  if c.verify_ok then .ok () else .error .badSignature

/-- Csr::into_subject_infos. -/
def Csr.into_subject_infos (c : Csr) : Name × PublicKey := (c.subject_name, c.public_key)

/-- SubjectInfos of certificate.rs. -/
inductive SubjectInfos
  | csr (csr : Csr)
  | nameAndPublicKey (name : Name) (public_key : PublicKey)
  deriving DecidableEq

/-- IssuerInfos of certificate.rs. -/
inductive IssuerInfos
  | selfSigned (name : Name) (key : PrivateKey)
  | authority (issuer_name : Name) (issuer_key : PrivateKey) (aki : Bytes)
  deriving DecidableEq

/-- CertificateBuilderInner of certificate.rs: the RefCell content at the
moment build is called. -/
structure CertificateBuilderInner where
  valid_from : Option Nat := none
  valid_to : Option Nat := none
  subject_infos : Option SubjectInfos := none
  issuer_infos : Option IssuerInfos := none
  ca : Option Bool := none
  pathlen : Option Nat := none
  signature_hash_type : Option SignatureHashType := none
  key_id_gen_method : Option KeyIdGenMethod := none
  key_usage : Option KeyUsage := none
  extended_key_usage : Option ExtendedKeyUsage := none
  subject_alt_name : Option SubjectAltName := none
  issuer_alt_name : Option IssuerAltName := none
  deriving DecidableEq

/-- generate_serial_number from certificate.rs: the four big-endian bytes
of the 32-bit OsRng draw, which Ops supplies. -/
def generate_serial_number (x : Nat) : Bytes :=
  [x / 2 ^ 24 % 256, x / 2 ^ 16 % 256, x / 2 ^ 8 % 256, x % 256]

/-- Extension::new_key_usage; the default criticality lives in
serde/extension.rs, which is not under src, so it comes from Ops. -/
def Extension.new_key_usage (crit : Bool) (ku : KeyUsage) : Extension := ⟨crit, .keyUsage ku⟩

/-- Extension::new_extended_key_usage, criticality from Ops. -/
def Extension.new_extended_key_usage (crit : Bool) (eku : ExtendedKeyUsage) : Extension :=
  ⟨crit, .extendedKeyUsage eku⟩

/-- Extension::new_subject_alt_name, criticality from Ops. -/
def Extension.new_subject_alt_name (crit : Bool) (san : SubjectAltName) : Extension :=
  ⟨crit, .subjectAltName san⟩

/-- Extension::new_issuer_alt_name, criticality from Ops. -/
def Extension.new_issuer_alt_name (crit : Bool) (ian : IssuerAltName) : Extension :=
  ⟨crit, .issuerAltName ian⟩

/-- Extension::new_subject_key_identifier, criticality from Ops. -/
def Extension.new_subject_key_identifier (crit : Bool) (ski : Bytes) : Extension :=
  ⟨crit, .subjectKeyIdentifier ski⟩

/-- Extension::new_authority_key_identifier, criticality from Ops. -/
def Extension.new_authority_key_identifier (crit : Bool) (key_id : Bytes)
    (issuer : Option Name) (serial : Option Bytes) : Extension :=
  ⟨crit, .authorityKeyIdentifier key_id issuer serial⟩

/-- Extension list assembled by build, in source order: basic constraints
(critical exactly when a key usage with the digital signature bit was
supplied), key usage, extended key usage, subject alt name, issuer alt
name, subject key identifier, authority key identifier. -/
def buildExtensions (ops : Ops) (inner : CertificateBuilderInner) (ski aki : Bytes) :
    List Extension :=
  (match inner.key_usage with
   | some key_usage =>
     (if key_usage.digital_signature then
        [(Extension.new_basic_constraints (inner.ca.getD false) inner.pathlen).into_critical]
      else
        [(Extension.new_basic_constraints (inner.ca.getD false) inner.pathlen).into_non_critical])
     ++ [Extension.new_key_usage ops.kuCritical key_usage]
   | none =>
     [(Extension.new_basic_constraints (inner.ca.getD false) inner.pathlen).into_non_critical])
  ++ (match inner.extended_key_usage with
      | some eku => [Extension.new_extended_key_usage ops.ekuCritical eku]
      | none => [])
  ++ (match inner.subject_alt_name with
      | some san => [Extension.new_subject_alt_name ops.sanCritical san]
      | none => [])
  ++ (match inner.issuer_alt_name with
      | some ian => [Extension.new_issuer_alt_name ops.ianCritical ian]
      | none => [])
  ++ [Extension.new_subject_key_identifier ops.skiCritical ski,
      Extension.new_authority_key_identifier ops.akiCritical aki none none]

/-- TBSCertificate assembled by build. -/
def assembleTbs (ops : Ops) (inner : CertificateBuilderInner)
    (valid_from valid_to : Nat) (signature_hash_type : SignatureHashType)
    (issuer_name subject_name : Name) (subject_public_key : PublicKey)
    (ski aki : Bytes) : TBSCertificate where
  version := .V3
  serial_number := generate_serial_number ops.rngU32
  signature := signature_hash_type.toAlgorithmIdentifier
  issuer := issuer_name
  validity := ⟨valid_from, valid_to⟩
  subject := subject_name
  subject_public_key_info := subject_public_key
  extensions := buildExtensions ops inner ski aki

/-- Context wrapping over PRes, matching the snafu context calls in build;
a panic passes through. -/
def pctx {α : Type} (f : PickyError → PickyError) : PRes α → PRes α
  | none => none
  | some (.error e) => some (.error (f e))
  | some (.ok a) => some (.ok a)

/-- Tail of build once subject name and key are resolved: subject key
identifier generation (its error wrapped with CertGeneration), extension
and TBS assembly, TBS serialization, and signing with the issuer key. -/
def buildAssemble (ops : Ops) (inner : CertificateBuilderInner)
    (valid_from valid_to : Nat) (signature_hash_type : SignatureHashType)
    (key_id_gen_method : KeyIdGenMethod) (issuer_name : Name)
    (issuer_key : PrivateKey) (aki : Bytes) (subject_name : Name)
    (subject_public_key : PublicKey) : PRes Certificate :=
  match pctx .certGeneration (key_id_gen_method.generate_from ops subject_public_key) with
  | none => none
  | some (.error e) => some (.error e)
  | some (.ok ski) =>
    match ops.tbsToDer (assembleTbs ops inner valid_from valid_to signature_hash_type
        issuer_name subject_name subject_public_key ski aki) with
    | .error _ => pfail (.certGeneration (.asn1Serialization "tbs certificate"))
    | .ok tbs_der =>
      match signature_hash_type.sign ops tbs_der issuer_key with
      | .error e => pfail (.certGeneration e)
      | .ok signature_value =>
        pok { tbs_certificate := assembleTbs ops inner valid_from valid_to signature_hash_type
                issuer_name subject_name subject_public_key ski aki
              signature_algorithm := signature_hash_type.toAlgorithmIdentifier
              signature_value := signature_value }

/-- Subject resolution of build: a CSR is verified first and contributes
its subject and key, a plain name and key pass through. -/
def buildWithSubject (ops : Ops) (inner : CertificateBuilderInner)
    (valid_from valid_to : Nat) (signature_hash_type : SignatureHashType)
    (key_id_gen_method : KeyIdGenMethod) (issuer_name : Name)
    (issuer_key : PrivateKey) (aki : Bytes) (subject_infos : SubjectInfos) :
    PRes Certificate :=
  match subject_infos with
  | .csr csr =>
    match csr.verify with
    | .error e => some (.error e)
    | .ok _ =>
      buildAssemble ops inner valid_from valid_to signature_hash_type key_id_gen_method
        issuer_name issuer_key aki csr.subject_name csr.public_key
  | .nameAndPublicKey name public_key =>
    buildAssemble ops inner valid_from valid_to signature_hash_type key_id_gen_method
      issuer_name issuer_key aki name public_key

/-- CertificateBuilder::build from certificate.rs: required argument
checks in source order, issuer resolution (a self-signed issuer derives
its own authority key identifier and overrides the subject with its own
name and derived public key; an authority issuer requires explicit subject
infos), then subject resolution and assembly. -/
def CertificateBuilder.build (ops : Ops) (inner : CertificateBuilderInner) :
    PRes Certificate :=
  match inner.valid_from with
  | none => pfail (.missingBuilderArgument "valid_from")
  | some valid_from =>
    match inner.valid_to with
    | none => pfail (.missingBuilderArgument "valid_to")
    | some valid_to =>
      match inner.issuer_infos with
      | none => pfail (.missingBuilderArgument "issuer_infos")
      | some (.selfSigned name key) =>
        match (inner.key_id_gen_method.getD (.SPKFullDER .Sha256)).generate_from ops
            key.to_public_key with
        | none => none
        | some (.error e) => some (.error e)
        | some (.ok aki) =>
          buildWithSubject ops inner valid_from valid_to
            (inner.signature_hash_type.getD .RsaSha256)
            (inner.key_id_gen_method.getD (.SPKFullDER .Sha256))
            name key aki (.nameAndPublicKey name key.to_public_key)
      | some (.authority issuer_name issuer_key aki) =>
        match inner.subject_infos with
        | none => pfail (.missingBuilderArgument "subject_infos")
        | some subject_infos =>
          buildWithSubject ops inner valid_from valid_to
            (inner.signature_hash_type.getD .RsaSha256)
            (inner.key_id_gen_method.getD (.SPKFullDER .Sha256))
            issuer_name issuer_key aki subject_infos

/-- pok is injective. -/
theorem pok_inj {α : Type} {a b : α} (h : pok a = pok b) : a = b := by
  injection h with h2
  injection h2

/-- pctx returns ok exactly when the underlying computation does. -/
theorem pctx_ok_iff {α : Type} (f : PickyError → PickyError) (x : PRes α) (a : α) :
    pctx f x = some (.ok a) ↔ x = some (.ok a) := by
  cases x with
  | none => exact Iff.rfl
  | some ex =>
    cases ex with
    | error e =>
      constructor
      · intro hh
        exact Except.noConfusion (Option.some.inj hh)
      · intro hh
        exact Except.noConfusion (Option.some.inj hh)
    | ok b => exact Iff.rfl

/-- Characterization of a successful buildAssemble: the subject key
identifier generation succeeded and the certificate is the assembled TBS
with some signature value. -/
theorem buildAssemble_ok (ops : Ops) (inner : CertificateBuilderInner)
    (valid_from valid_to : Nat) (sht : SignatureHashType) (kigm : KeyIdGenMethod)
    (issuer_name : Name) (issuer_key : PrivateKey) (aki : Bytes)
    (subject_name : Name) (subject_public_key : PublicKey) (c : Certificate)
    (h : buildAssemble ops inner valid_from valid_to sht kigm issuer_name issuer_key aki
      subject_name subject_public_key = pok c) :
    ∃ ski signature_value,
      kigm.generate_from ops subject_public_key = pok ski ∧
      c = { tbs_certificate := assembleTbs ops inner valid_from valid_to sht issuer_name
              subject_name subject_public_key ski aki
            signature_algorithm := sht.toAlgorithmIdentifier
            signature_value := signature_value } := by
  unfold buildAssemble at h
  split at h
  · exact Option.noConfusion h
  · exact Except.noConfusion (Option.some.inj h)
  · rename_i ski hski
    split at h
    · exact Except.noConfusion (Option.some.inj h)
    · rename_i tbs_der htbs
      split at h
      · exact Except.noConfusion (Option.some.inj h)
      · rename_i sv hsig
        exact ⟨ski, sv, (pctx_ok_iff PickyError.certGeneration _ ski).mp hski,
          (pok_inj h).symm⟩

/-- First extension slots (basic constraints, optional key usage, optional
extended key usage, optional alt names) of the built list. -/
def buildExtensionsPrefix (ops : Ops) (inner : CertificateBuilderInner) : List Extension :=
  (match inner.key_usage with
   | some key_usage =>
     (if key_usage.digital_signature then
        [(Extension.new_basic_constraints (inner.ca.getD false) inner.pathlen).into_critical]
      else
        [(Extension.new_basic_constraints (inner.ca.getD false) inner.pathlen).into_non_critical])
     ++ [Extension.new_key_usage ops.kuCritical key_usage]
   | none =>
     [(Extension.new_basic_constraints (inner.ca.getD false) inner.pathlen).into_non_critical])
  ++ (match inner.extended_key_usage with
      | some eku => [Extension.new_extended_key_usage ops.ekuCritical eku]
      | none => [])
  ++ (match inner.subject_alt_name with
      | some san => [Extension.new_subject_alt_name ops.sanCritical san]
      | none => [])
  ++ (match inner.issuer_alt_name with
      | some ian => [Extension.new_issuer_alt_name ops.ianCritical ian]
      | none => [])

/-- The built extension list always ends with the subject key identifier
followed by the authority key identifier. -/
theorem buildExtensions_split (ops : Ops) (inner : CertificateBuilderInner) (ski aki : Bytes) :
    buildExtensions ops inner ski aki =
      buildExtensionsPrefix ops inner ++
        [Extension.new_subject_key_identifier ops.skiCritical ski,
         Extension.new_authority_key_identifier ops.akiCritical aki none none] := by
  simp [buildExtensions, buildExtensionsPrefix, List.append_assoc]

/-- C7: a certificate built with a self-signed issuer carries equal key
identifiers: the value of its subject key identifier extension equals the
keyIdentifier of its authority key identifier extension, because both are
generated from the issuer own public key with the same method. -/
theorem build_self_signed_aki_eq_ski (ops : Ops) (inner : CertificateBuilderInner)
    (name : Name) (key : PrivateKey) (c : Certificate)
    (hself : inner.issuer_infos = some (.selfSigned name key))
    (h : CertificateBuilder.build ops inner = pok c) :
    ∃ kid pre,
      c.tbs_certificate.extensions =
        pre ++ [⟨ops.skiCritical, .subjectKeyIdentifier kid⟩,
                ⟨ops.akiCritical, .authorityKeyIdentifier kid none none⟩] := by
  unfold CertificateBuilder.build at h
  split at h
  · exact Except.noConfusion (Option.some.inj h)
  · rename_i valid_from hvf2
    split at h
    · exact Except.noConfusion (Option.some.inj h)
    · rename_i valid_to hvt2
      split at h
      · rename_i heq
        rw [hself] at heq
        exact Option.noConfusion heq
      · rename_i name2 key2 heq
        rw [hself] at heq
        injection heq with heq2
        injection heq2 with hn hk
        subst hn
        subst hk
        split at h
        · exact Option.noConfusion h
        · exact Except.noConfusion (Option.some.inj h)
        · rename_i aki haki
          obtain ⟨ski, sv, hski, hc⟩ :=
            buildAssemble_ok ops inner valid_from valid_to
              (inner.signature_hash_type.getD .RsaSha256)
              (inner.key_id_gen_method.getD (.SPKFullDER .Sha256))
              name key aki name key.to_public_key c h
          have hsa : ski = aki := pok_inj (hski.symm.trans haki)
          subst hsa
          refine ⟨ski, buildExtensionsPrefix ops inner, ?_⟩
          rw [hc]
          exact buildExtensions_split ops inner ski ski
      · rename_i i_name i_key a heq
        rw [hself] at heq
        injection heq with heq2
        exact IssuerInfos.noConfusion heq2

/-- Characterization of a successful build: the extension list is the
assembled one for some generated subject key identifier, the subject key
identifier is generated from the certificate subject public key with the
configured method, and the authority key identifier and subject come from
the issuer infos (a self-signed issuer contributes its own derived key
identifier and overrides the subject with its own name and key). -/
theorem build_ok_cases (ops : Ops) (inner : CertificateBuilderInner) (c : Certificate)
    (h : CertificateBuilder.build ops inner = pok c) :
    ∃ ski aki,
      c.tbs_certificate.extensions = buildExtensions ops inner ski aki ∧
      KeyIdGenMethod.generate_from ops (inner.key_id_gen_method.getD (.SPKFullDER .Sha256))
        c.tbs_certificate.subject_public_key_info = pok ski ∧
      (∀ n k, inner.issuer_infos = some (.selfSigned n k) →
        KeyIdGenMethod.generate_from ops (inner.key_id_gen_method.getD (.SPKFullDER .Sha256))
            k.to_public_key = pok aki ∧
        c.tbs_certificate.subject = n ∧
        c.tbs_certificate.subject_public_key_info = k.to_public_key ∧
        c.tbs_certificate.issuer = n) ∧
      (∀ n k a, inner.issuer_infos = some (.authority n k a) →
        aki = a ∧ c.tbs_certificate.issuer = n) := by
  unfold CertificateBuilder.build at h
  split at h
  · exact Except.noConfusion (Option.some.inj h)
  · rename_i valid_from hvf2
    split at h
    · exact Except.noConfusion (Option.some.inj h)
    · rename_i valid_to hvt2
      split at h
      · exact Except.noConfusion (Option.some.inj h)
      · rename_i name key heq
        split at h
        · exact Option.noConfusion h
        · exact Except.noConfusion (Option.some.inj h)
        · rename_i aki haki
          obtain ⟨ski, sv, hski, hc⟩ :=
            buildAssemble_ok ops inner valid_from valid_to
              (inner.signature_hash_type.getD .RsaSha256)
              (inner.key_id_gen_method.getD (.SPKFullDER .Sha256))
              name key aki name key.to_public_key c h
          subst hc
          refine ⟨ski, aki, rfl, hski, ?_, ?_⟩
          · intro n2 k2 hss
            rw [heq] at hss
            injection hss with hss2
            injection hss2 with hn hk
            subst hn
            subst hk
            exact ⟨haki, rfl, rfl, rfl⟩
          · intro n2 k2 a2 hau
            rw [heq] at hau
            injection hau with hau2
            exact IssuerInfos.noConfusion hau2
      · rename_i issuer_name issuer_key aki heq
        split at h
        · exact Except.noConfusion (Option.some.inj h)
        · rename_i subject_infos hsubj
          unfold buildWithSubject at h
          split at h
          · rename_i csr2
            split at h
            · exact Except.noConfusion (Option.some.inj h)
            · obtain ⟨ski, sv, hski, hc⟩ :=
                buildAssemble_ok ops inner valid_from valid_to
                  (inner.signature_hash_type.getD .RsaSha256)
                  (inner.key_id_gen_method.getD (.SPKFullDER .Sha256))
                  issuer_name issuer_key aki csr2.subject_name csr2.public_key c h
              subst hc
              refine ⟨ski, aki, rfl, hski, ?_, ?_⟩
              · intro n2 k2 hss
                rw [heq] at hss
                injection hss with hss2
                exact IssuerInfos.noConfusion hss2
              · intro n2 k2 a2 hau
                rw [heq] at hau
                injection hau with hau2
                injection hau2 with hn hk ha
                subst hn
                subst ha
                exact ⟨rfl, rfl⟩
          · rename_i sname spk
            obtain ⟨ski, sv, hski, hc⟩ :=
              buildAssemble_ok ops inner valid_from valid_to
                (inner.signature_hash_type.getD .RsaSha256)
                (inner.key_id_gen_method.getD (.SPKFullDER .Sha256))
                issuer_name issuer_key aki sname spk c h
            subst hc
            refine ⟨ski, aki, rfl, hski, ?_, ?_⟩
            · intro n2 k2 hss
              rw [heq] at hss
              injection hss with hss2
              exact IssuerInfos.noConfusion hss2
            · intro n2 k2 a2 hau
              rw [heq] at hau
              injection hau with hau2
              injection hau2 with hn hk ha
              subst hn
              subst ha
              exact ⟨rfl, rfl⟩

/-- pctx wraps every error it returns. -/
theorem pctx_error_shape {α : Type} (f : PickyError → PickyError) (x : PRes α) (e : PickyError)
    (h : pctx f x = some (.error e)) : ∃ e0, e = f e0 := by
  cases x with
  | none => exact Option.noConfusion h
  | some ex =>
    cases ex with
    | error e0 =>
      refine ⟨e0, ?_⟩
      injection h with h1
      injection h1 with h2
      exact h2.symm
    | ok a =>
      injection h with h1
      exact Except.noConfusion h1

/-- Key identifier generation never reports a missing builder argument:
its failures are serialization errors and its panic is the digest slice. -/
theorem generate_from_no_missing (ops : Ops) (m : KeyIdGenMethod) (pk : PublicKey) (s : String) :
    KeyIdGenMethod.generate_from ops m pk ≠ some (.error (.missingBuilderArgument s)) := by
  intro hcon
  unfold KeyIdGenMethod.generate_from at hcon
  split at hcon
  · split at hcon
    · injection hcon with h1
      injection h1 with h2
      exact PickyError.noConfusion h2
    · split at hcon
      · exact Option.noConfusion hcon
      · injection hcon with h1
        exact Except.noConfusion h1
  · split at hcon
    · exact Option.noConfusion hcon
    · injection hcon with h1
      exact Except.noConfusion h1
  · split at hcon
    · injection hcon with h1
      injection h1 with h2
      exact PickyError.noConfusion h2
    · injection hcon with h1
      exact Except.noConfusion h1

/-- Csr verification never reports a missing builder argument. -/
theorem csr_verify_no_missing (c : Csr) (s : String) :
    Csr.verify c ≠ .error (.missingBuilderArgument s) := by
  intro hcon
  unfold Csr.verify at hcon
  by_cases hv : c.verify_ok
  · rw [if_pos hv] at hcon
    exact Except.noConfusion hcon
  · rw [if_neg hv] at hcon
    injection hcon with h1
    exact PickyError.noConfusion h1

/-- The assembly tail never reports a missing builder argument: its
errors are wrapped with CertGeneration. -/
theorem buildAssemble_no_missing (ops : Ops) (inner : CertificateBuilderInner)
    (valid_from valid_to : Nat) (sht : SignatureHashType) (kigm : KeyIdGenMethod)
    (issuer_name : Name) (issuer_key : PrivateKey) (aki : Bytes)
    (subject_name : Name) (subject_public_key : PublicKey) (s : String) :
    buildAssemble ops inner valid_from valid_to sht kigm issuer_name issuer_key aki
      subject_name subject_public_key ≠ some (.error (.missingBuilderArgument s)) := by
  intro hcon
  unfold buildAssemble at hcon
  split at hcon
  · exact Option.noConfusion hcon
  · rename_i e hpe
    injection hcon with h1
    injection h1 with h2
    subst h2
    obtain ⟨e0, he⟩ := pctx_error_shape PickyError.certGeneration _ _ hpe
    exact PickyError.noConfusion he
  · split at hcon
    · injection hcon with h1
      injection h1 with h2
      exact PickyError.noConfusion h2
    · split at hcon
      · injection hcon with h1
        injection h1 with h2
        exact PickyError.noConfusion h2
      · injection hcon with h1
        exact Except.noConfusion h1

/-- Subject resolution never reports a missing builder argument. -/
theorem buildWithSubject_no_missing (ops : Ops) (inner : CertificateBuilderInner)
    (valid_from valid_to : Nat) (sht : SignatureHashType) (kigm : KeyIdGenMethod)
    (issuer_name : Name) (issuer_key : PrivateKey) (aki : Bytes)
    (subject_infos : SubjectInfos) (s : String) :
    buildWithSubject ops inner valid_from valid_to sht kigm issuer_name issuer_key aki
      subject_infos ≠ some (.error (.missingBuilderArgument s)) := by
  intro hcon
  unfold buildWithSubject at hcon
  split at hcon
  · split at hcon
    · rename_i e hce
      injection hcon with h1
      injection h1 with h2
      subst h2
      exact csr_verify_no_missing _ _ hce
    · exact buildAssemble_no_missing ops inner valid_from valid_to sht kigm issuer_name
        issuer_key aki _ _ s hcon
  · exact buildAssemble_no_missing ops inner valid_from valid_to sht kigm issuer_name
      issuer_key aki _ _ s hcon

/-- C8: build fails with MissingBuilderArgument naming the missing field
when the validity bounds or the issuer infos are unset, or when an
authority issuer has no subject infos; with a self-signed issuer it never
fails for a missing subject_infos, and the subject defaults to the issuer
own name and derived public key. -/
theorem build_missing_arguments (ops : Ops) (inner : CertificateBuilderInner) :
    (inner.valid_from = none →
      CertificateBuilder.build ops inner = pfail (.missingBuilderArgument "valid_from")) ∧
    (∀ vf, inner.valid_from = some vf → inner.valid_to = none →
      CertificateBuilder.build ops inner = pfail (.missingBuilderArgument "valid_to")) ∧
    (∀ vf vt, inner.valid_from = some vf → inner.valid_to = some vt →
      inner.issuer_infos = none →
      CertificateBuilder.build ops inner = pfail (.missingBuilderArgument "issuer_infos")) ∧
    (∀ vf vt n k a, inner.valid_from = some vf → inner.valid_to = some vt →
      inner.issuer_infos = some (.authority n k a) → inner.subject_infos = none →
      CertificateBuilder.build ops inner = pfail (.missingBuilderArgument "subject_infos")) ∧
    (∀ n k, inner.issuer_infos = some (.selfSigned n k) →
      (CertificateBuilder.build ops inner ≠ pfail (.missingBuilderArgument "subject_infos")) ∧
      (∀ c, CertificateBuilder.build ops inner = pok c →
        c.tbs_certificate.subject = n ∧
        c.tbs_certificate.subject_public_key_info = k.to_public_key)) := by
  refine ⟨?_, ?_, ?_, ?_, ?_⟩
  · intro h1
    unfold CertificateBuilder.build
    rw [h1]
  · intro vf h1 h2
    unfold CertificateBuilder.build
    rw [h1, h2]
  · intro vf vt h1 h2 h3
    unfold CertificateBuilder.build
    rw [h1, h2, h3]
  · intro vf vt n k a h1 h2 h3 h4
    unfold CertificateBuilder.build
    rw [h1, h2, h3, h4]
  · intro n k hself
    constructor
    · intro hcon
      unfold CertificateBuilder.build at hcon
      split at hcon
      · injection hcon with h1
        injection h1 with h2
        injection h2 with h3
        exact absurd h3 (by decide)
      · split at hcon
        · injection hcon with h1
          injection h1 with h2
          injection h2 with h3
          exact absurd h3 (by decide)
        · split at hcon
          · rename_i heq
            rw [hself] at heq
            exact Option.noConfusion heq
          · rename_i name2 key2 heq
            split at hcon
            · exact Option.noConfusion hcon
            · rename_i e hgen
              injection hcon with h1
              injection h1 with h2
              subst h2
              exact generate_from_no_missing _ _ _ _ hgen
            · exact buildWithSubject_no_missing _ _ _ _ _ _ _ _ _ _ _ hcon
          · rename_i i_name i_key a heq
            rw [hself] at heq
            injection heq with heq2
            exact IssuerInfos.noConfusion heq2
    · intro c hok
      obtain ⟨ski, aki, _, _, hs, _⟩ := build_ok_cases ops inner c hok
      obtain ⟨_, hsub, hpk, _⟩ := hs n k hself
      exact ⟨hsub, hpk⟩

/-- Witness for C8 at the empty builder configuration. -/
theorem build_missing_arguments_witness :
    CertificateBuilder.build ops0 {} = pfail (.missingBuilderArgument "valid_from") :=
  (build_missing_arguments ops0 {}).1 rfl

/-- Unfolded shape of the built extension list: the basic constraints
head carries the digital signature bit of the supplied key usage as its
criticality flag. -/
theorem buildExtensions_shape (ops : Ops) (inner : CertificateBuilderInner) (ski aki : Bytes) :
    buildExtensions ops inner ski aki =
      [⟨(match inner.key_usage with
         | some ku => ku.digital_signature
         | none => false), .basicConstraints (inner.ca.getD false) inner.pathlen⟩]
      ++ (match inner.key_usage with
          | some ku => [⟨ops.kuCritical, .keyUsage ku⟩]
          | none => [])
      ++ (match inner.extended_key_usage with
          | some eku => [⟨ops.ekuCritical, .extendedKeyUsage eku⟩]
          | none => [])
      ++ (match inner.subject_alt_name with
          | some san => [⟨ops.sanCritical, .subjectAltName san⟩]
          | none => [])
      ++ (match inner.issuer_alt_name with
          | some ian => [⟨ops.ianCritical, .issuerAltName ian⟩]
          | none => [])
      ++ [⟨ops.skiCritical, .subjectKeyIdentifier ski⟩,
          ⟨ops.akiCritical, .authorityKeyIdentifier aki none none⟩] := by
  unfold buildExtensions
  cases hku : inner.key_usage with
  | none =>
    simp [Extension.new_basic_constraints, Extension.into_non_critical,
      Extension.new_key_usage, Extension.new_extended_key_usage,
      Extension.new_subject_alt_name, Extension.new_issuer_alt_name,
      Extension.new_subject_key_identifier, Extension.new_authority_key_identifier]
  | some ku =>
    cases hds : ku.digital_signature <;>
      simp [hds, Extension.new_basic_constraints, Extension.into_critical,
        Extension.into_non_critical, Extension.new_key_usage,
        Extension.new_extended_key_usage, Extension.new_subject_alt_name,
        Extension.new_issuer_alt_name, Extension.new_subject_key_identifier,
        Extension.new_authority_key_identifier]

/-- C9: every certificate built successfully carries its extensions in
the order basic constraints, key usage when supplied, extended key usage
when supplied, subject alt name when supplied, issuer alt name when
supplied, subject key identifier, authority key identifier; the basic
constraints extension is critical exactly when a key usage with the
digital signature bit set was supplied; and the authority key identifier
value is the issuer subject key identifier (derived for a self-signed
issuer, the supplied value for an authority issuer). -/
theorem build_extension_order (ops : Ops) (inner : CertificateBuilderInner) (c : Certificate)
    (h : CertificateBuilder.build ops inner = pok c) :
    ∃ ski aki,
      (c.tbs_certificate.extensions =
        [⟨(match inner.key_usage with
           | some ku => ku.digital_signature
           | none => false), .basicConstraints (inner.ca.getD false) inner.pathlen⟩]
        ++ (match inner.key_usage with
            | some ku => [⟨ops.kuCritical, .keyUsage ku⟩]
            | none => [])
        ++ (match inner.extended_key_usage with
            | some eku => [⟨ops.ekuCritical, .extendedKeyUsage eku⟩]
            | none => [])
        ++ (match inner.subject_alt_name with
            | some san => [⟨ops.sanCritical, .subjectAltName san⟩]
            | none => [])
        ++ (match inner.issuer_alt_name with
            | some ian => [⟨ops.ianCritical, .issuerAltName ian⟩]
            | none => [])
        ++ [⟨ops.skiCritical, .subjectKeyIdentifier ski⟩,
            ⟨ops.akiCritical, .authorityKeyIdentifier aki none none⟩]) ∧
      ((c.tbs_certificate.extensions.head?.map Extension.critical = some true) ↔
        (∃ ku, inner.key_usage = some ku ∧ ku.digital_signature = true)) ∧
      (∀ n k, inner.issuer_infos = some (.selfSigned n k) →
        KeyIdGenMethod.generate_from ops (inner.key_id_gen_method.getD (.SPKFullDER .Sha256))
          k.to_public_key = pok aki) ∧
      (∀ n k a, inner.issuer_infos = some (.authority n k a) → aki = a) := by
  obtain ⟨ski, aki, hext, hgen, hselfc, hauthc⟩ := build_ok_cases ops inner c h
  refine ⟨ski, aki, ?_, ?_,
    fun n k hh => (hselfc n k hh).1, fun n k a hh => (hauthc n k a hh).1⟩
  · rw [hext]
    exact buildExtensions_shape ops inner ski aki
  · rw [hext, buildExtensions_shape]
    cases hku : inner.key_usage with
    | none => simp [hku]
    | some ku =>
      cases hds : ku.digital_signature with
      | true => simp [hku, hds]
      | false => simp [hku, hds]

/-- Concrete private key used by the builder witnesses. -/
def keySelf0 : PrivateKey := ⟨⟨.RSA ⟨[1], [1]⟩⟩, [2]⟩

/-- Concrete self-signed builder configuration used by witnesses. -/
def innerSelf0 : CertificateBuilderInner :=
  { valid_from := some 0
    valid_to := some 10
    issuer_infos := some (.selfSigned ⟨"Root"⟩ keySelf0) }

/-- Certificate produced by build ops0 innerSelf0. -/
def builtSelf0 : Certificate :=
  { tbs_certificate :=
      { version := .V3
        serial_number := [0, 0, 0, 7]
        signature := SHA256_WITH_RSA_ENCRYPTION
        issuer := ⟨"Root"⟩
        validity := ⟨0, 10⟩
        subject := ⟨"Root"⟩
        subject_public_key_info := ⟨.RSA ⟨[1], [1]⟩⟩
        extensions :=
          [⟨false, .basicConstraints false none⟩,
           ⟨false, .subjectKeyIdentifier ([0, 1, 1] ++ List.replicate 29 0)⟩,
           ⟨false, .authorityKeyIdentifier ([0, 1, 1] ++ List.replicate 29 0) none none⟩] }
    signature_algorithm := SHA256_WITH_RSA_ENCRYPTION
    signature_value := [0] }

/-- Witness for C7 at the concrete self-signed configuration. -/
theorem build_self_signed_aki_eq_ski_witness :
    ∃ kid pre,
      builtSelf0.tbs_certificate.extensions =
        pre ++ [⟨ops0.skiCritical, .subjectKeyIdentifier kid⟩,
                ⟨ops0.akiCritical, .authorityKeyIdentifier kid none none⟩] :=
  build_self_signed_aki_eq_ski ops0 innerSelf0 ⟨"Root"⟩ keySelf0 builtSelf0 rfl (by decide)

/-- Witness for C9 at the concrete self-signed configuration. -/
theorem build_extension_order_witness :
    ∃ ski aki,
      (builtSelf0.tbs_certificate.extensions =
        [⟨false, .basicConstraints false none⟩]
        ++ [] ++ [] ++ [] ++ []
        ++ [⟨ops0.skiCritical, .subjectKeyIdentifier ski⟩,
            ⟨ops0.akiCritical, .authorityKeyIdentifier aki none none⟩]) ∧
      ((builtSelf0.tbs_certificate.extensions.head?.map Extension.critical = some true) ↔
        (∃ ku, innerSelf0.key_usage = some ku ∧ ku.digital_signature = true)) ∧
      (∀ n k, innerSelf0.issuer_infos = some (.selfSigned n k) →
        KeyIdGenMethod.generate_from ops0
          (innerSelf0.key_id_gen_method.getD (.SPKFullDER .Sha256))
          k.to_public_key = pok aki) ∧
      (∀ n k a, innerSelf0.issuer_infos = some (.authority n k a) → aki = a) :=
  build_extension_order ops0 innerSelf0 builtSelf0 (by decide)

/-- Error kinds of the picky-asn1-der deserializer relevant to the
sequence walker. -/
inductive Asn1DerError
  | TrailingBytes
  | TruncatedData
  | InvalidData
  deriving DecidableEq

/-- Reader position of the deserializer, as reader.pos() exposes it. -/
structure DeState where
  pos : Nat
  deriving DecidableEq

/-- Sequence walker of picky-asn1-der/src/de/sequence.rs: the remaining
byte budget (a usize in the source). -/
structure Sequence where
  len : Nat
  deriving DecidableEq

/-- Word size of the usize arithmetic in sequence.rs. -/
def U64 : Nat := 2 ^ 64

/-- Sequence::next_element_seed from picky-asn1-der/src/de/sequence.rs:
yield no element exactly when the budget is zero, otherwise run the inner
decoder and subtract the consumed byte count from the budget; the
subtraction is usize arithmetic, modelled with release profile wrapping
semantics. -/
def Sequence.next_element_seed (seed : DeState → Except Asn1DerError DeState)
    (s : Sequence) (de : DeState) :
    Except Asn1DerError (Option Unit × Sequence × DeState) :=
  if s.len = 0 then .ok (none, s, de)
  else
    match seed de with
    | .error e => .error e
    | .ok de2 =>
      .ok (some (), ⟨(s.len + U64 - (de2.pos - de.pos) % U64) % U64⟩, de2)

/-- Modelled from the spec: the deserializer driving a nested SEQUENCE
(picky-asn1-der/src/de/mod.rs is not under src).  One inner decoder runs
per schema field through next_element_seed; an exhausted budget before the
fields end is a truncation error. -/
def decodeSequenceLoop : List (DeState → Except Asn1DerError DeState) →
    Sequence → DeState → Except Asn1DerError (Sequence × DeState)
  | [], s, de => .ok (s, de)
  | seed :: rest, s, de =>
    match Sequence.next_element_seed seed s de with
    | .error e => .error e
    | .ok (none, _, _) => .error .TruncatedData
    | .ok (some _, s2, de2) => decodeSequenceLoop rest s2 de2

/-- Modelled from the spec: the length bounded SEQUENCE consumer
surfaces TrailingBytes when the nested decoding did not consume the byte
budget exactly (picky-asn1-der/src/de/mod.rs is not under src). -/
def decodeSequence (seeds : List (DeState → Except Asn1DerError DeState))
    (len : Nat) (de : DeState) : Except Asn1DerError DeState :=
  match decodeSequenceLoop seeds ⟨len⟩ de with
  | .error e => .error e
  | .ok (s, de2) => if s.len = 0 then .ok de2 else .error .TrailingBytes

/-- C4: the sequence walker yields the end of elements value exactly when
its byte budget is zero, and a single element SEQUENCE whose inner decoder
consumes c bytes against a budget of len bytes decodes successfully when
c equals len and surfaces TrailingBytes otherwise (under- as well as
over-consumption, the latter through the wrapped budget staying nonzero). -/
theorem sequence_budget_and_trailing
    (seed : DeState → Except Asn1DerError DeState) (s : Sequence) (de : DeState)
    (len c pos : Nat)
    (hlen : len < U64) (hc : c < U64)
    (hseed : seed ⟨pos⟩ = .ok ⟨pos + c⟩) :
    ((s.len = 0 → Sequence.next_element_seed seed s de = .ok (none, s, de)) ∧
     (s.len ≠ 0 → ∀ s2 de2, Sequence.next_element_seed seed s de ≠ .ok (none, s2, de2))) ∧
    (0 < len →
      decodeSequence [seed] len ⟨pos⟩ =
        if c = len then .ok ⟨pos + c⟩ else .error .TrailingBytes) := by
  refine ⟨⟨?_, ?_⟩, ?_⟩
  · intro h0
    unfold Sequence.next_element_seed
    rw [if_pos h0]
  · intro h0 s2 de2 hcon
    unfold Sequence.next_element_seed at hcon
    rw [if_neg h0] at hcon
    cases hs : seed de with
    | error e =>
      rw [hs] at hcon
      exact Except.noConfusion hcon
    | ok de3 =>
      rw [hs] at hcon
      injection hcon with h1
      injection h1 with h2 h3
      exact Option.noConfusion h2
  · intro hpos
    have h0 : ¬ ((⟨len⟩ : Sequence).len = 0) := by
      simp
      omega
    have hred : decodeSequence [seed] len ⟨pos⟩ =
        if (len + U64 - (pos + c - pos) % U64) % U64 = 0 then Except.ok (⟨pos + c⟩ : DeState)
        else Except.error Asn1DerError.TrailingBytes := by
      unfold decodeSequence decodeSequenceLoop Sequence.next_element_seed
      rw [if_neg h0, hseed]
      rfl
    rw [hred]
    have hcc : pos + c - pos = c := by omega
    rw [hcc, Nat.mod_eq_of_lt hc]
    by_cases hceq : c = len
    · subst hceq
      have hz : (c + U64 - c) % U64 = 0 := by
        have h2 : c + U64 - c = U64 := by omega
        rw [h2]
        exact Nat.mod_self U64
      rw [hz]
      simp
    · have hnz : (len + U64 - c) % U64 ≠ 0 := by
        rcases Nat.lt_or_ge c len with hlt | hge
        · have h2 : len + U64 - c = U64 + (len - c) := by omega
          rw [h2, Nat.add_mod_left, Nat.mod_eq_of_lt (by omega)]
          omega
        · have hgt : len < c := by
            rcases Nat.eq_or_lt_of_le hge with he | hl
            · exact absurd he.symm hceq
            · exact hl
          have h2 : len + U64 - c = U64 - (c - len) := by
            have hU : c < U64 := hc
            omega
          rw [h2, Nat.mod_eq_of_lt (by omega)]
          omega
      simp [hnz, hceq]

/-- Concrete inner decoder used by the C4 witness: consumes two bytes. -/
def seqSeed0 : DeState → Except Asn1DerError DeState := fun st => .ok ⟨st.pos + 2⟩

/-- Witness for C4: a two byte element against a three byte budget
surfaces TrailingBytes. -/
theorem sequence_budget_and_trailing_witness :
    (((⟨0⟩ : Sequence).len = 0 →
        Sequence.next_element_seed seqSeed0 ⟨0⟩ ⟨5⟩ = .ok (none, ⟨0⟩, ⟨5⟩)) ∧
     ((⟨0⟩ : Sequence).len ≠ 0 →
        ∀ s2 de2, Sequence.next_element_seed seqSeed0 ⟨0⟩ ⟨5⟩ ≠ .ok (none, s2, de2))) ∧
    (0 < 3 →
      decodeSequence [seqSeed0] 3 ⟨5⟩ =
        if 2 = 3 then .ok ⟨5 + 2⟩ else .error .TrailingBytes) :=
  sequence_budget_and_trailing seqSeed0 ⟨0⟩ ⟨5⟩ 3 2 5 (by decide) (by decide) rfl

/-- One backend store invocation recorded by the post_cert model. -/
structure StoreCall where
  name : String
  cert : Bytes
  key : Option Bytes
  ski : String
  deriving DecidableEq

/-- Serialization and store outcome consumed by post_cert. -/
structure PostOps where
  certToDer : Cert → Except String Bytes
  storeOk : StoreCall → Bool

/-- post_cert from picky-server/src/http/controllers/server_controller.rs,
once content parsing produced a certificate: the response status starts as
400 Bad Request; the subject key identifier is fetched, the issuer display
name must equal CN=realm Authority, the certificate is serialized and only
then stored; the status becomes 200 only after a successful store.  The
second component records the backend store invocations. -/
def post_cert (ops : PostOps) (realm : String) (cert : Cert) : Nat × List StoreCall :=
  match cert.subject_key_identifier with
  | .error _ => (400, [])
  | .ok ski_bytes =>
    if cert.issuer.display ≠ "CN=" ++ realm ++ " Authority" then (400, [])
    else
      match ops.certToDer cert with
      | .error _ => (400, [])
      | .ok der =>
        if ops.storeOk ⟨cert.subject.display, der, none, hexEncode ski_bytes⟩ then
          (200, [⟨cert.subject.display, der, none, hexEncode ski_bytes⟩])
        else
          (400, [⟨cert.subject.display, der, none, hexEncode ski_bytes⟩])

/-- C10: a certificate whose issuer display name differs from
CN=realm Authority is answered with 400 and the backend store operation
is never invoked. -/
theorem post_cert_rejects_foreign_issuer (ops : PostOps) (realm : String) (cert : Cert)
    (hne : cert.issuer.display ≠ "CN=" ++ realm ++ " Authority") :
    post_cert ops realm cert = (400, []) := by
  unfold post_cert
  split
  · rfl
  · rw [if_pos hne]

/-- Concrete serializer and store used by the C10 witness. -/
def postOps0 : PostOps where
  certToDer := fun _ => .ok [1]
  storeOk := fun _ => true

/-- Witness for C10: a certificate issued under CN=Root is rejected by a
server whose realm is Picky, with no store call. -/
theorem post_cert_rejects_foreign_issuer_witness :
    post_cert postOps0 "Picky" intCert0 = (400, []) :=
  post_cert_rejects_foreign_issuer postOps0 "Picky" intCert0 (by decide)
